import Mathlib

/-!
Verification of the PTY session subsystem of termillion
(`src-tauri/src/pty/core.rs`), as a shallow embedding in Lean.

Bytes are modelled as `Nat` (the code only ever compares bytes against
concrete values, so no upper bound is needed).  Event payloads that are
Rust `String`s built from raw bytes (`Title`) are modelled as the byte
list itself, guarded by UTF-8 validity exactly where the code calls
`String::from_utf8`; the decoded string is a bijective image of the
valid byte list, so nothing is lost.
-/

namespace Termillion

/-- Event type sent over the output channel, from `enum PtyOutputEvent`
in `core.rs`.  `Title` carries the raw captured bytes (the code sends
their UTF-8 decode; emission is guarded by validity, see
`process_for_title`). -/
inductive PtyOutputEvent : Type
  | Output (data : List Nat)
  | Exit (status : String)
  | Bell
  | Title (title : List Nat)
  | Metrics (bytesRead bytesWritten messagesSent uptimeMs : Nat)
  deriving DecidableEq, Repr

/-- RFC 3629 UTF-8 validity over a byte list: exactly the byte sequences
accepted by the Rust function `String::from_utf8` (used on the captured title
bytes in `process_for_title`). -/
def utf8Valid : List Nat → Bool
  | [] => true
  | b :: rest =>
    if b ≤ 0x7f then
      utf8Valid rest
    else if 0xc2 ≤ b ∧ b ≤ 0xdf then
      match rest with
      | c1 :: r => if 0x80 ≤ c1 ∧ c1 ≤ 0xbf then utf8Valid r else false
      | [] => false
    else if b = 0xe0 then
      match rest with
      | c1 :: c2 :: r =>
        if (0xa0 ≤ c1 ∧ c1 ≤ 0xbf) ∧ (0x80 ≤ c2 ∧ c2 ≤ 0xbf) then utf8Valid r else false
      | _ => false
    else if (0xe1 ≤ b ∧ b ≤ 0xec) ∨ b = 0xee ∨ b = 0xef then
      match rest with
      | c1 :: c2 :: r =>
        if (0x80 ≤ c1 ∧ c1 ≤ 0xbf) ∧ (0x80 ≤ c2 ∧ c2 ≤ 0xbf) then utf8Valid r else false
      | _ => false
    else if b = 0xed then
      match rest with
      | c1 :: c2 :: r =>
        if (0x80 ≤ c1 ∧ c1 ≤ 0x9f) ∧ (0x80 ≤ c2 ∧ c2 ≤ 0xbf) then utf8Valid r else false
      | _ => false
    else if b = 0xf0 then
      match rest with
      | c1 :: c2 :: c3 :: r =>
        if (0x90 ≤ c1 ∧ c1 ≤ 0xbf) ∧ (0x80 ≤ c2 ∧ c2 ≤ 0xbf) ∧ (0x80 ≤ c3 ∧ c3 ≤ 0xbf) then
          utf8Valid r
        else false
      | _ => false
    else if 0xf1 ≤ b ∧ b ≤ 0xf3 then
      match rest with
      | c1 :: c2 :: c3 :: r =>
        if (0x80 ≤ c1 ∧ c1 ≤ 0xbf) ∧ (0x80 ≤ c2 ∧ c2 ≤ 0xbf) ∧ (0x80 ≤ c3 ∧ c3 ≤ 0xbf) then
          utf8Valid r
        else false
      | _ => false
    else if b = 0xf4 then
      match rest with
      | c1 :: c2 :: c3 :: r =>
        if (0x80 ≤ c1 ∧ c1 ≤ 0x8f) ∧ (0x80 ≤ c2 ∧ c2 ≤ 0xbf) ∧ (0x80 ≤ c3 ∧ c3 ≤ 0xbf) then
          utf8Valid r
        else false
      | _ => false
    else false

/-- Title-scanner state of the reader thread: the mutable locals
`title_sequence` and `title_buffer` of `create_pty`. -/
structure TitleScan where
  titleSeq : Bool
  titleBuf : List Nat
  deriving DecidableEq, Repr

/-- Translation of the closure `process_for_title` in `create_pty`
(`core.rs` lines 242-287).  Walks the chunk byte by byte:

* inside a title sequence, a backslash (92) or BEL (7) terminates the
  sequence and sends a `Title` event when the captured bytes decode as
  UTF-8 (otherwise the update is dropped); any other byte is captured;
* outside, the four-byte introducer ESC `]` `0` `;` (27,93,48,59) —
  which the code only recognizes when fully inside the chunk
  (`i + 3 < data.len()`) — enters capture mode and is skipped;
* every other byte is pushed onto the batch buffer.

Returns the `Title` events emitted (in order), the updated batch
buffer, and the updated scanner state. -/
def process_for_title : List Nat → List Nat → TitleScan →
    List PtyOutputEvent × List Nat × TitleScan
  | [], batch, st => ([], batch, st)
  | b :: rest, batch, st =>
    if st.titleSeq then
      if b = 92 ∨ b = 7 then
        let evs := if utf8Valid st.titleBuf then [PtyOutputEvent.Title st.titleBuf] else []
        let r := process_for_title rest batch ⟨false, []⟩
        (evs ++ r.1, r.2)
      else
        process_for_title rest batch ⟨true, st.titleBuf ++ [b]⟩
    else
      match b, rest with
      | 27, 93 :: 48 :: 59 :: rest4 =>
        process_for_title rest4 batch ⟨true, st.titleBuf⟩
      | b2, r =>
        process_for_title r (batch ++ [b2]) st

/-- State of the reader thread between reads: title scanner, batch
buffer, and the metric counters the thread updates (`bytes_read`,
`messages_sent`). -/
structure ReaderState where
  titleSeq : Bool
  titleBuf : List Nat
  batch : List Nat
  bytesRead : Nat
  messagesSent : Nat
  deriving DecidableEq, Repr

/-- Initial reader state at thread start. -/
def initReader : ReaderState := ⟨false, [], [], 0, 0⟩

/-- Translation of the closure `send_batch` (`core.rs` lines 289-312).
Real time is abstracted by the boolean `elapsed`, true when
`now - last_send ≥ batch_timeout` at this call.  Sends one `Output`
event with the whole batch iff the batch is non-empty and either the
send is forced or the timeout has elapsed. -/
def send_batch (st : ReaderState) (force elapsed : Bool) :
    List PtyOutputEvent × ReaderState :=
  if st.batch ≠ [] ∧ (force = true ∨ elapsed = true) then
    ([PtyOutputEvent.Output st.batch],
     { st with batch := [],
               bytesRead := st.bytesRead + st.batch.length,
               messagesSent := st.messagesSent + 1 })
  else ([], st)

/-- One iteration of the reader loop for a successful read `Ok(n)` with
`n > 0` (`core.rs` lines 324-343): emit `Bell` if the chunk contains a
BEL byte, run the title scanner over the chunk, then attempt a
non-forced batch send. -/
def stepChunk (chunk : List Nat) (elapsed : Bool) (st : ReaderState) :
    List PtyOutputEvent × ReaderState :=
  let bellEvs := if 7 ∈ chunk then [PtyOutputEvent.Bell] else []
  let p := process_for_title chunk st.batch ⟨st.titleSeq, st.titleBuf⟩
  let st1 : ReaderState :=
    { st with titleSeq := p.2.2.titleSeq, titleBuf := p.2.2.titleBuf, batch := p.2.1 }
  let s := send_batch st1 false elapsed
  (bellEvs ++ p.1 ++ s.1, s.2)

/-- The reader loop (`core.rs` lines 314-352) over a list of successful
reads, each a chunk paired with the timeout oracle for that
call to `send_batch` in that iteration.  The list ends when `read` returns
`Ok(0)` (EOF) or `Err` — both force-flush the batch and break, which is
the base case.  Returns the events sent, in order. -/
def runReader : List (List Nat × Bool) → ReaderState → List PtyOutputEvent
  | [], st => (send_batch st true false).1
  | (c, e) :: rest, st =>
    let s := stepChunk c e st
    s.1 ++ runReader rest s.2

/-- Concatenation of the payloads of the `Output` events of a trace. -/
def concatOutputs : List PtyOutputEvent → List Nat
  | [] => []
  | PtyOutputEvent.Output d :: rest => d ++ concatOutputs rest
  | _ :: rest => concatOutputs rest

/-- Bytes that survive the per-chunk title scanner over a whole list of
read chunks, threading the batch buffer and scanner state but never
flushing: the total byte stream destined for `Output` events. -/
def scanAll : List (List Nat) → List Nat → TitleScan → List Nat
  | [], batch, _ => batch
  | c :: rest, batch, ts =>
    let p := process_for_title c batch ts
    scanAll rest p.2.1 p.2.2

/-- Recognizer for the `Bell` event. -/
def isBellEv : PtyOutputEvent → Bool
  | PtyOutputEvent.Bell => true
  | _ => false

/-- Atomic actions on the shared per-session `exit_event_sent` flag, the
only state coordinating `Exit` emission.  `readerClaim` is the post-loop claim of the
reader thread (`core.rs` 354-367), `watcherClaim` the claim of the
exit watcher on detected exit (453-467): both are
`compare_exchange(false, true)` and send `Exit` exactly on success.
`destroySet` is the unconditional `store(true)` in `destroy_pty` (582) and
`probeSet` the `store(true)` in `is_pty_alive` on a detected exit (638):
both set the flag and send nothing. -/
inductive ExitAction : Type
  | readerClaim
  | watcherClaim
  | destroySet
  | probeSet
  deriving DecidableEq, Repr

/-- Effect of one action on the flag, paired with the number of `Exit`
events it sends (1 exactly when a compare-and-swap from `false`
succeeds, 0 otherwise). -/
def exitEmits (flag : Bool) : ExitAction → Bool × Nat
  | ExitAction.readerClaim => if flag then (true, 0) else (true, 1)
  | ExitAction.watcherClaim => if flag then (true, 0) else (true, 1)
  | ExitAction.destroySet => (true, 0)
  | ExitAction.probeSet => (true, 0)

/-- Total number of `Exit` events sent along an interleaving of flag
actions, starting from flag value `flag`. -/
def exitCount (flag : Bool) : List ExitAction → Nat
  | [] => 0
  | a :: rest => (exitEmits flag a).2 + exitCount (exitEmits flag a).1 rest

/-- Which thread emitted an event: used to state ordering properties of
the interleaved event stream (the channel delivers events in emission
order). -/
inductive ThreadTag : Type
  | reader
  | watcher
  deriving DecidableEq, Repr

/-- An event of the interleaved system trace, tagged with the emitting
thread. -/
structure SysEvent where
  src : ThreadTag
  ev : PtyOutputEvent
  deriving DecidableEq, Repr

/-- Scheduler actions of the per-session system: one reader-loop
iteration, one exit-watcher poll iteration, or the child process
terminating. -/
inductive SysAct : Type
  | readerStep
  | watcherPoll
  | childExit
  deriving DecidableEq, Repr

/-- State of one session and its two threads.  `pending` are the reads
the reader will still perform before EOF (with their batch-timeout
oracles); `rdone` marks the reader past its post-loop exit claim;
`flag` is `exit_event_sent`; `inStore` tracks presence in the global
store; `wdone` marks the watcher loop ended; `exitStatus` is the
debug-formatted status string the watcher would send. -/
structure SysState where
  pending : List (List Nat × Bool)
  rst : ReaderState
  rdone : Bool
  flag : Bool
  inStore : Bool
  wdone : Bool
  childExited : Bool
  exitStatus : String
  deriving DecidableEq, Repr

/-- One scheduler step.  The reader (`core.rs` 314-368) processes its
next read, or at EOF force-flushes and then claims the flag, emitting
`Exit "Reader thread ended"` exactly on a successful claim.  The
watcher (431-503) does one poll iteration: gone from store → silent
end; child exited → claim the flag (emitting its `Exit` on success) and
remove the session; child running → sleep.  `childExit` is the child
process terminating. -/
def sysStep (s : SysState) : SysAct → List SysEvent × SysState
  | SysAct.childExit => ([], { s with childExited := true })
  | SysAct.readerStep =>
    if s.rdone then ([], s)
    else
      match s.pending with
      | (c, e) :: rest =>
        let r := stepChunk c e s.rst
        (r.1.map (fun ev => ⟨ThreadTag.reader, ev⟩),
         { s with pending := rest, rst := r.2 })
      | [] =>
        let fl := send_batch s.rst true false
        let exitEvs :=
          if s.flag then []
          else [(⟨ThreadTag.reader, PtyOutputEvent.Exit "Reader thread ended"⟩ : SysEvent)]
        (fl.1.map (fun ev => ⟨ThreadTag.reader, ev⟩) ++ exitEvs,
         { s with rst := fl.2, flag := true, rdone := true })
  | SysAct.watcherPoll =>
    if s.wdone then ([], s)
    else if ¬s.inStore then ([], { s with wdone := true })
    else if s.childExited then
      let exitEvs :=
        if s.flag then []
        else [(⟨ThreadTag.watcher, PtyOutputEvent.Exit s.exitStatus⟩ : SysEvent)]
      (exitEvs, { s with flag := true, inStore := false, wdone := true })
    else ([], s)

/-- Interleaved run: the events of a schedule of steps, in emission
order. -/
def sysRun (s : SysState) : List SysAct → List SysEvent
  | [] => []
  | a :: rest => (sysStep s a).1 ++ sysRun (sysStep s a).2 rest

/-- Initial system state right after `create_pty` returns: reader about
to perform the reads in `cin`, flag clear, session registered, child
running. -/
def sysInit (cin : List (List Nat × Bool)) (status : String) : SysState :=
  ⟨cin, initReader, false, false, true, false, false, status⟩

/-- Recognizer for an `Output` trace event. -/
def isOutputEv : SysEvent → Bool
  | ⟨_, PtyOutputEvent.Output _⟩ => true
  | _ => false

/-- Recognizer for an `Exit` event emitted by the reader thread. -/
def isReaderExit : SysEvent → Bool
  | ⟨ThreadTag.reader, PtyOutputEvent.Exit _⟩ => true
  | _ => false

/-- True when some `Output` event occurs strictly after a reader-emitted
`Exit` event in the trace. -/
def outputAfterReaderExit : List SysEvent → Bool
  | [] => false
  | e :: rest => (isReaderExit e && rest.any isOutputEv) || outputAfterReaderExit rest

/-- Final state of an interleaved run. -/
def sysFinal (s : SysState) : List SysAct → SysState
  | [] => s
  | a :: rest => sysFinal (sysStep s a).2 rest

/-- The `Output` payloads of a reader-thread trace, in emission order. -/
def outputsOf (t : List PtyOutputEvent) : List (List Nat) :=
  t.filterMap fun ev =>
    match ev with
    | PtyOutputEvent.Output d => some d
    | _ => none

/-- The `Output` payloads of an interleaved system trace, in emission
order. -/
def sysOutputs (t : List SysEvent) : List (List Nat) :=
  t.filterMap fun e =>
    match e.ev with
    | PtyOutputEvent.Output d => some d
    | _ => none

/-- The `Output` payloads the reader thread will still emit from state
`s`: none once it is done, otherwise those of its remaining sequential
run. -/
def remainingOutputs (s : SysState) : List (List Nat) :=
  if s.rdone then [] else outputsOf (runReader s.pending s.rst)

/-- Result of one non-blocking `child.try_wait()` probe: still running,
exited with a (debug-formatted) status, or a probe error. -/
inductive ChildProbe : Type
  | running
  | exited (status : String)
  | probeErr (msg : String)
  deriving DecidableEq, Repr

/-- Observable state of one `PtyInstance` for the command-level
operations (`core.rs` `mod types` / `write_pty` / `is_pty_alive` /
`destroy_pty`).  `writeCalls` records the payload of each completed
`write_all` on the stored writer; `flushCalls` counts `flush` calls;
`writeIoErr` is an oracle for the next write failing; `takeWriterOk`
for whether `take_writer` would succeed in the defensive re-take
branch; `killFails` / `waitFails` are oracles for `child.kill()` /
`child.wait()` failing during destroy (ignored by the code). -/
structure Session where
  exitEventSent : Bool
  child : ChildProbe
  writerPresent : Bool
  writeCalls : List (List Nat)
  flushCalls : Nat
  bytesWritten : Nat
  writeIoErr : Option String
  takeWriterOk : Bool
  killFails : Bool
  waitFails : Bool
  deriving DecidableEq, Repr

/-- The global PTY store: an association list keyed by session id, with
at most one binding per key (a `HashMap` in the code). -/
abbrev Store : Type := List (String × Session)

/-- Lookup in the store (`store::get` / `store::get_mut`). -/
def lookupS : Store → String → Option Session
  | [], _ => none
  | (k, v) :: rest, id2 => if k = id2 then some v else lookupS rest id2

/-- Removal from the store (`store::remove`): drops every binding of
the key. -/
def removeS : Store → String → Store
  | [], _ => []
  | (k, v) :: rest, id2 => if k = id2 then removeS rest id2 else (k, v) :: removeS rest id2

/-- Replace the session bound to a key. -/
def updateS : Store → String → Session → Store
  | [], _, _ => []
  | (k, v) :: rest, id2, s2 =>
    if k = id2 then (k, s2) :: updateS rest id2 s2 else (k, v) :: updateS rest id2 s2

/-- Translation of `write_pty` (`core.rs` 516-554): looks up the
session (error if absent), writes the whole payload with a single
`write_all` on the stored writer, flushes, and adds the payload length
to `bytes_written`; if the writer slot is empty it first re-takes the
writer from the master.  A failing `write_all`/`flush`/`take_writer`
surfaces the error and records no completed call. -/
def write_pty (st : Store) (id2 : String) (data : List Nat) : Except String Unit × Store :=
  match lookupS st id2 with
  | none => (Except.error ("PTY with ID " ++ id2 ++ " not found"), st)
  | some s =>
    if s.writerPresent then
      match s.writeIoErr with
      | some m => (Except.error m, st)
      | none =>
        (Except.ok (),
         updateS st id2
           { s with writeCalls := s.writeCalls ++ [data],
                    flushCalls := s.flushCalls + 1,
                    bytesWritten := s.bytesWritten + data.length })
    else
      if s.takeWriterOk then
        match s.writeIoErr with
        | some m => (Except.error m, st)
        | none =>
          (Except.ok (),
           updateS st id2
             { s with writerPresent := true,
                      writeCalls := s.writeCalls ++ [data],
                      flushCalls := s.flushCalls + 1,
                      bytesWritten := s.bytesWritten + data.length })
      else (Except.error "failed to take writer", st)

/-- Translation of `is_pty_alive` (`core.rs` 624-648): absent session →
`Ok(false)`; flag already set → `Ok(false)`; otherwise a non-blocking
probe: detected exit sets the flag and returns `Ok(false)`, a running
child returns `Ok(true)`, and a probe error is returned as `Err`. -/
def is_pty_alive (st : Store) (id2 : String) : Except String Bool × Store :=
  match lookupS st id2 with
  | none => (Except.ok false, st)
  | some s =>
    if s.exitEventSent then (Except.ok false, st)
    else
      match s.child with
      | ChildProbe.exited _ => (Except.ok false, updateS st id2 { s with exitEventSent := true })
      | ChildProbe.running => (Except.ok true, st)
      | ChildProbe.probeErr m => (Except.error m, st)

/-- Translation of `destroy_pty` (`core.rs` 578-621): removes the
session from the store if present; sets its flag, kills and reaps the
child with all failures logged and swallowed; always returns `Ok`,
also when the id is unknown. -/
def destroy_pty (st : Store) (id2 : String) : Except String Unit × Store :=
  match lookupS st id2 with
  | none => (Except.ok (), st)
  | some _ => (Except.ok (), removeS st id2)

/-- A freshly created session: flag clear, child running, writer
stored, no writes yet, no failure oracles set. -/
def freshSession : Session :=
  ⟨false, ChildProbe.running, true, [], 0, 0, none, true, false, false⟩

/-- A session whose non-blocking probe fails. -/
def errSession : Session :=
  ⟨false, ChildProbe.probeErr "probe failed", true, [], 0, 0, none, true, false, false⟩

/-- A session whose child has already exited (flag not yet set). -/
def exitedSession : Session :=
  ⟨false, ChildProbe.exited "ExitStatus(0)", true, [], 0, 0, none, true, false, false⟩

/-- A session whose `kill()` and `wait()` both fail. -/
def stubbornSession : Session :=
  ⟨false, ChildProbe.running, true, [], 0, 0, none, true, true, true⟩

/-- The write calls recorded on a fresh single-session store after one
`write_pty` of `data`. -/
def writeCallsAfter (data : List Nat) : List (List Nat) :=
  match lookupS (write_pty [("s", freshSession)] "s" data).2 "s" with
  | some s => s.writeCalls
  | none => []

lemma pft_term (b : Nat) (rest batch : List Nat) (st : TitleScan)
    (hseq : st.titleSeq = true) (hterm : b = 92 ∨ b = 7) :
    process_for_title (b :: rest) batch st =
      ((if utf8Valid st.titleBuf then [PtyOutputEvent.Title st.titleBuf] else []) ++
        (process_for_title rest batch ⟨false, []⟩).1,
       (process_for_title rest batch ⟨false, []⟩).2) := by
  rw [process_for_title.eq_3]
  · simp [hseq, if_pos hterm]
  · intro rest4 hb _
    rcases hterm with h | h <;> omega

lemma pft_cap (b : Nat) (rest batch : List Nat) (st : TitleScan)
    (hseq : st.titleSeq = true) (hterm : ¬(b = 92 ∨ b = 7)) :
    process_for_title (b :: rest) batch st =
      process_for_title rest batch ⟨true, st.titleBuf ++ [b]⟩ := by
  by_cases hp : b = 27 ∧ ∃ rest4, rest = 93 :: 48 :: 59 :: rest4
  · obtain ⟨hb, rest4, hr⟩ := hp
    subst hb hr
    rw [process_for_title.eq_2]
    simp [hseq, if_neg hterm]
  · rw [process_for_title.eq_3]
    · simp [hseq, if_neg hterm]
    · intro rest4 hb hr
      exact hp ⟨hb, rest4, hr⟩

lemma pft_intro (rest4 batch : List Nat) (st : TitleScan)
    (hseq : ¬st.titleSeq = true) :
    process_for_title (27 :: 93 :: 48 :: 59 :: rest4) batch st =
      process_for_title rest4 batch ⟨true, st.titleBuf⟩ := by
  rw [process_for_title.eq_2]
  simp [hseq]

lemma pft_plain (b : Nat) (rest batch : List Nat) (st : TitleScan)
    (hseq : ¬st.titleSeq = true)
    (hne : ∀ rest4 : List Nat, b = 27 → rest = 93 :: 48 :: 59 :: rest4 → False) :
    process_for_title (b :: rest) batch st = process_for_title rest (batch ++ [b]) st := by
  rw [process_for_title.eq_3]
  · simp [hseq]
  · exact hne

lemma process_for_title_batch : ∀ (data _batch : List Nat) (st : TitleScan) (b2 : List Nat),
    process_for_title data b2 st =
      ((process_for_title data [] st).1,
       b2 ++ (process_for_title data [] st).2.1,
       (process_for_title data [] st).2.2) := by
  intro data _batch st
  induction data, _batch, st using process_for_title.induct with
  | case1 batch st => intro b2; simp [process_for_title.eq_1]
  | case2 b rest batch st hseq hterm ih =>
    intro b2
    rw [pft_term b rest b2 st hseq hterm, pft_term b rest [] st hseq hterm]
    rw [ih b2, ih []]
  | case3 b rest batch st hseq hterm ih =>
    intro b2
    rw [pft_cap b rest b2 st hseq hterm, pft_cap b rest [] st hseq hterm]
    rw [ih b2, ih []]
  | case4 batch st hseq rest4 ih =>
    intro b2
    rw [pft_intro rest4 b2 st hseq, pft_intro rest4 [] st hseq]
    rw [ih b2, ih []]
  | case5 batch st hseq b r hne ih =>
    intro b2
    rw [pft_plain b r b2 st hseq hne, pft_plain b r [] st hseq hne]
    rw [ih (b2 ++ [b]), ih ([] ++ [b])]
    simp

lemma process_for_title_events : ∀ (data batch : List Nat) (st : TitleScan),
    ∀ ev ∈ (process_for_title data batch st).1, ∃ t, ev = PtyOutputEvent.Title t := by
  intro data batch st
  induction data, batch, st using process_for_title.induct with
  | case1 batch st => simp [process_for_title.eq_1]
  | case2 b rest batch st hseq hterm ih =>
    intro ev hev
    rw [pft_term b rest batch st hseq hterm] at hev
    simp only [List.mem_append] at hev
    rcases hev with h | h
    · rcases Bool.eq_false_or_eq_true (utf8Valid st.titleBuf) with hv | hv <;>
        simp [hv] at h
      exact ⟨st.titleBuf, h⟩
    · exact ih ev h
  | case3 b rest batch st hseq hterm ih =>
    intro ev hev
    rw [pft_cap b rest batch st hseq hterm] at hev
    exact ih ev hev
  | case4 batch st hseq rest4 ih =>
    intro ev hev
    rw [pft_intro rest4 batch st hseq] at hev
    exact ih ev hev
  | case5 batch st hseq b r hne ih =>
    intro ev hev
    rw [pft_plain b r batch st hseq hne] at hev
    exact ih ev hev

lemma concatOutputs_append (xs ys : List PtyOutputEvent) :
    concatOutputs (xs ++ ys) = concatOutputs xs ++ concatOutputs ys := by
  induction xs with
  | nil => simp [concatOutputs]
  | cons e xs ih => cases e <;> simp [concatOutputs, ih]

lemma concatOutputs_titles (evs : List PtyOutputEvent)
    (h : ∀ ev ∈ evs, ∃ t, ev = PtyOutputEvent.Title t) :
    concatOutputs evs = [] := by
  induction evs with
  | nil => rfl
  | cons e xs ih =>
    obtain ⟨t, rfl⟩ := h e (by simp)
    simp [concatOutputs]
    exact ih fun ev hev => h ev (by simp [hev])

lemma scanAll_batch : ∀ (cs : List (List Nat)) (batch : List Nat) (ts : TitleScan),
    scanAll cs batch ts = batch ++ scanAll cs [] ts := by
  intro cs
  induction cs with
  | nil => simp [scanAll]
  | cons c rest ih =>
    intro batch ts
    simp only [scanAll]
    rw [process_for_title_batch c [] ts batch]
    rw [ih (batch ++ (process_for_title c [] ts).2.1) (process_for_title c [] ts).2.2,
        ih (process_for_title c [] ts).2.1 (process_for_title c [] ts).2.2]
    simp [List.append_assoc]

lemma concatOutputs_runReader :
    ∀ (inputs : List (List Nat × Bool)) (st : ReaderState),
    concatOutputs (runReader inputs st) =
      st.batch ++ scanAll (inputs.map Prod.fst) [] ⟨st.titleSeq, st.titleBuf⟩ := by
  intro inputs
  induction inputs with
  | nil =>
    intro st
    simp only [runReader, List.map_nil, scanAll, List.append_nil]
    by_cases h : st.batch = []
    · simp [send_batch, h, concatOutputs]
    · simp [send_batch, h, concatOutputs]
  | cons ce rest ih =>
    intro st
    obtain ⟨c, e⟩ := ce
    simp only [runReader, List.map_cons]
    rw [concatOutputs_append]
    simp only [stepChunk]
    rw [concatOutputs_append, concatOutputs_append]
    have hbell : concatOutputs (if 7 ∈ c then [PtyOutputEvent.Bell] else []) = [] := by
      by_cases h7 : 7 ∈ c <;> simp [h7, concatOutputs]
    have htitles :
        concatOutputs (process_for_title c st.batch ⟨st.titleSeq, st.titleBuf⟩).1 = [] :=
      concatOutputs_titles _ (process_for_title_events c st.batch ⟨st.titleSeq, st.titleBuf⟩)
    rw [hbell, htitles]
    simp only [List.nil_append, scanAll]
    rw [process_for_title_batch c [] ⟨st.titleSeq, st.titleBuf⟩ st.batch]
    rw [scanAll_batch (List.map Prod.fst rest)]
    generalize (process_for_title c [] ⟨st.titleSeq, st.titleBuf⟩) = q
    obtain ⟨qE, qB, qSs, qSb⟩ := q
    simp only []
    by_cases hcond : st.batch ++ qB ≠ [] ∧ (false = true ∨ e = true)
    · rw [send_batch, if_pos]
      · simp only [concatOutputs, List.append_nil]
        rw [ih]
        simp [List.append_assoc]
      · exact hcond
    · rw [send_batch, if_neg]
      · simp only [concatOutputs, List.nil_append]
        rw [ih]
        simp [List.append_assoc]
      · exact hcond

lemma pft_capture_run : ∀ (T batch buf : List Nat),
    (∀ b ∈ T, b ≠ 92 ∧ b ≠ 7) →
    process_for_title (T ++ [7]) batch ⟨true, buf⟩ =
      ((if utf8Valid (buf ++ T) then [PtyOutputEvent.Title (buf ++ T)] else []),
       batch, ⟨false, []⟩) := by
  intro T
  induction T with
  | nil =>
    intro batch buf _
    rw [List.nil_append, pft_term 7 [] batch ⟨true, buf⟩ rfl (Or.inr rfl)]
    simp [process_for_title.eq_1]
  | cons b T ih =>
    intro batch buf h
    have hb := h b (by simp)
    rw [List.cons_append, pft_cap b (T ++ [7]) batch ⟨true, buf⟩ rfl (by tauto)]
    rw [ih batch (buf ++ [b]) (fun x hx => h x (by simp [hx]))]
    simp

lemma send_batch_shape (st : ReaderState) (f e : Bool) :
    (send_batch st f e).1 = [] ∨ (send_batch st f e).1 = [PtyOutputEvent.Output st.batch] := by
  unfold send_batch
  split
  · right; rfl
  · left; rfl

lemma countP_bell_send_batch (st : ReaderState) (f e : Bool) :
    List.countP isBellEv (send_batch st f e).1 = 0 := by
  rcases send_batch_shape st f e with h | h <;> rw [h] <;> simp [isBellEv]

lemma countP_bell_titles (data batch : List Nat) (ts : TitleScan) :
    List.countP isBellEv (process_for_title data batch ts).1 = 0 := by
  rw [List.countP_eq_zero]
  intro ev hev
  obtain ⟨t, rfl⟩ := process_for_title_events data batch ts ev hev
  simp [isBellEv]

lemma stepChunk_bell (chunk : List Nat) (el : Bool) (st : ReaderState) :
    (List.countP isBellEv (stepChunk chunk el st).1 = if 7 ∈ chunk then 1 else 0)
    ∧ (7 ∈ chunk → ((stepChunk chunk el st).1).head? = some PtyOutputEvent.Bell) := by
  constructor
  · simp only [stepChunk, List.countP_append]
    rw [countP_bell_titles, countP_bell_send_batch]
    by_cases h7 : 7 ∈ chunk <;> simp [h7, isBellEv]
  · intro h7
    simp [stepChunk, h7]

lemma send_batch_output_nonempty (st : ReaderState) (f e : Bool) (d : List Nat)
    (h : PtyOutputEvent.Output d ∈ (send_batch st f e).1) : d ≠ [] := by
  unfold send_batch at h
  split at h
  · next hc =>
    simp only [List.mem_singleton, PtyOutputEvent.Output.injEq] at h
    subst h
    exact hc.1
  · simp at h

lemma runReader_output_nonempty :
    ∀ (inputs : List (List Nat × Bool)) (st : ReaderState) (d : List Nat),
    PtyOutputEvent.Output d ∈ runReader inputs st → d ≠ [] := by
  intro inputs
  induction inputs with
  | nil =>
    intro st d h
    exact send_batch_output_nonempty st true false d h
  | cons ce rest ih =>
    intro st d h
    obtain ⟨c, e⟩ := ce
    simp only [runReader, List.mem_append] at h
    rcases h with h | h
    · simp only [stepChunk, List.mem_append] at h
      rcases h with (h | h) | h
      · by_cases h7 : 7 ∈ c <;> simp [h7] at h
      · obtain ⟨t, ht⟩ :=
          process_for_title_events c st.batch ⟨st.titleSeq, st.titleBuf⟩ _ h
        simp at ht
      · exact send_batch_output_nonempty _ false e d h
    · exact ih _ _ h

/-- Once the flag is set, no action ever emits again. -/
lemma exitCount_true : ∀ t : List ExitAction, exitCount true t = 0 := by
  intro t
  induction t with
  | nil => rfl
  | cons a rest ih =>
    cases a <;> simp [exitCount, exitEmits, ih]

lemma exitCount_le_one : ∀ t : List ExitAction, exitCount false t ≤ 1 := by
  intro t
  cases t with
  | nil => simp [exitCount]
  | cons a rest =>
    cases a <;> simp [exitCount, exitEmits, exitCount_true]

lemma sysStep_childExit (s : SysState) :
    sysStep s SysAct.childExit = ([], { s with childExited := true }) := rfl

lemma sysStep_reader_done (s : SysState) (hr : s.rdone = true) :
    sysStep s SysAct.readerStep = ([], s) := by
  simp [sysStep, hr]

lemma sysStep_reader_chunk (s : SysState) (c : List Nat) (e : Bool)
    (rest : List (List Nat × Bool)) (hr : s.rdone = false)
    (hp : s.pending = (c, e) :: rest) :
    sysStep s SysAct.readerStep =
      ((stepChunk c e s.rst).1.map (fun ev => ⟨ThreadTag.reader, ev⟩),
       { s with pending := rest, rst := (stepChunk c e s.rst).2 }) := by
  simp [sysStep, hr, hp]

lemma sysStep_reader_eof (s : SysState) (hr : s.rdone = false) (hp : s.pending = []) :
    sysStep s SysAct.readerStep =
      ((send_batch s.rst true false).1.map (fun ev => ⟨ThreadTag.reader, ev⟩) ++
         (if s.flag then []
          else [(⟨ThreadTag.reader, PtyOutputEvent.Exit "Reader thread ended"⟩ : SysEvent)]),
       { s with rst := (send_batch s.rst true false).2, flag := true, rdone := true }) := by
  simp [sysStep, hr, hp]

lemma sysStep_watcher_done (s : SysState) (hw : s.wdone = true) :
    sysStep s SysAct.watcherPoll = ([], s) := by
  simp [sysStep, hw]

lemma sysStep_watcher_gone (s : SysState) (hw : s.wdone = false) (hin : s.inStore = false) :
    sysStep s SysAct.watcherPoll = ([], { s with wdone := true }) := by
  simp [sysStep, hw, hin]

lemma sysStep_watcher_exit (s : SysState) (hw : s.wdone = false) (hin : s.inStore = true)
    (hc : s.childExited = true) :
    sysStep s SysAct.watcherPoll =
      ((if s.flag then []
        else [(⟨ThreadTag.watcher, PtyOutputEvent.Exit s.exitStatus⟩ : SysEvent)]),
       { s with flag := true, inStore := false, wdone := true }) := by
  simp [sysStep, hw, hin, hc]

lemma sysStep_watcher_wait (s : SysState) (hw : s.wdone = false) (hin : s.inStore = true)
    (hc : s.childExited = false) :
    sysStep s SysAct.watcherPoll = ([], s) := by
  simp [sysStep, hw, hin, hc]

lemma sysRun_cons (s : SysState) (a : SysAct) (rest : List SysAct) :
    sysRun s (a :: rest) = (sysStep s a).1 ++ sysRun (sysStep s a).2 rest := rfl

lemma sysRun_done : ∀ (acts : List SysAct) (s : SysState),
    s.rdone = true → s.flag = true → sysRun s acts = [] := by
  intro acts
  induction acts with
  | nil => intro s _ _; rfl
  | cons a rest ih =>
    intro s hr hf
    rw [sysRun_cons]
    cases a with
    | childExit =>
      rw [sysStep_childExit]
      simpa using ih { s with childExited := true } hr hf
    | readerStep =>
      rw [sysStep_reader_done s hr]
      simpa using ih s hr hf
    | watcherPoll =>
      cases hw : s.wdone with
      | true =>
        rw [sysStep_watcher_done s hw]
        simpa using ih s hr hf
      | false =>
        cases hin : s.inStore with
        | false =>
          rw [sysStep_watcher_gone s hw hin]
          simpa using ih { s with wdone := true } hr hf
        | true =>
          cases hc : s.childExited with
          | true =>
            rw [sysStep_watcher_exit s hw hin hc]
            simp only [hf, if_true]
            simpa using ih { s with flag := true, inStore := false, wdone := true } hr rfl
          | false =>
            rw [sysStep_watcher_wait s hw hin hc]
            simpa using ih s hr hf

lemma stepChunk_no_exit : ∀ (c : List Nat) (el : Bool) (st : ReaderState),
    ∀ ev ∈ (stepChunk c el st).1, ∀ status, ev ≠ PtyOutputEvent.Exit status := by
  intro c el st ev hev status
  simp only [stepChunk, List.mem_append] at hev
  rcases hev with (h | h) | h
  · by_cases h7 : 7 ∈ c
    · simp [h7] at h
      subst h
      simp
    · simp [h7] at h
  · obtain ⟨t, rfl⟩ := process_for_title_events c st.batch ⟨st.titleSeq, st.titleBuf⟩ _ h
    simp
  · rcases send_batch_shape _ false el with hs | hs <;> rw [hs] at h
    · simp at h
    · simp at h
      subst h
      simp

lemma oare_append_no_re : ∀ (xs ys : List SysEvent),
    (∀ e ∈ xs, isReaderExit e = false) →
    outputAfterReaderExit (xs ++ ys) = outputAfterReaderExit ys := by
  intro xs ys
  induction xs with
  | nil => intro _; rfl
  | cons e xs ih =>
    intro h
    have he := h e (by simp)
    simp [outputAfterReaderExit, he]
    exact ih fun x hx => h x (by simp [hx])

lemma oare_map_reader (evs : List PtyOutputEvent)
    (h : ∀ ev ∈ evs, ∀ st, ev ≠ PtyOutputEvent.Exit st) (ys : List SysEvent) :
    outputAfterReaderExit (evs.map (fun ev => ⟨ThreadTag.reader, ev⟩) ++ ys)
      = outputAfterReaderExit ys := by
  apply oare_append_no_re
  intro e he
  simp only [List.mem_map] at he
  obtain ⟨ev0, hev0, rfl⟩ := he
  cases ev0 with
  | Exit st => exact absurd rfl (h _ hev0 st)
  | Output d => rfl
  | Bell => rfl
  | Title t => rfl
  | Metrics a b c d => rfl

lemma send_batch_no_exit (st : ReaderState) (f e : Bool) :
    ∀ ev ∈ (send_batch st f e).1, ∀ status, ev ≠ PtyOutputEvent.Exit status := by
  intro ev hev status
  rcases send_batch_shape st f e with hs | hs <;> rw [hs] at hev
  · simp at hev
  · simp at hev
    subst hev
    simp

lemma oare_sysRun : ∀ (acts : List SysAct) (s : SysState),
    (s.rdone = true → s.flag = true) →
    outputAfterReaderExit (sysRun s acts) = false := by
  intro acts
  induction acts with
  | nil => intro s _; rfl
  | cons a rest ih =>
    intro s hinv
    rw [sysRun_cons]
    cases a with
    | childExit =>
      rw [sysStep_childExit]
      simpa using ih { s with childExited := true } hinv
    | readerStep =>
      cases hr : s.rdone with
      | true =>
        rw [sysStep_reader_done s hr]
        simpa using ih s hinv
      | false =>
        cases hp : s.pending with
        | cons ce restp =>
          obtain ⟨c, e⟩ := ce
          rw [sysStep_reader_chunk s c e restp hr hp]
          simp only []
          rw [oare_map_reader _ (stepChunk_no_exit c e s.rst)]
          exact ih _ (fun h => by simp [hr] at h)
        | nil =>
          rw [sysStep_reader_eof s hr hp]
          cases hf : s.flag with
          | true =>
            simp only [hf, if_true, List.append_nil]
            rw [oare_map_reader _ (send_batch_no_exit s.rst true false)]
            exact ih _ (fun _ => rfl)
          | false =>
            simp only [hf, Bool.false_eq_true, if_false]
            rw [sysRun_done rest _ rfl rfl, List.append_nil]
            rw [oare_map_reader _ (send_batch_no_exit s.rst true false)]
            simp [outputAfterReaderExit, isReaderExit]
    | watcherPoll =>
      cases hw : s.wdone with
      | true =>
        rw [sysStep_watcher_done s hw]
        simpa using ih s hinv
      | false =>
        cases hin : s.inStore with
        | false =>
          rw [sysStep_watcher_gone s hw hin]
          simpa using ih { s with wdone := true } hinv
        | true =>
          cases hc : s.childExited with
          | true =>
            rw [sysStep_watcher_exit s hw hin hc]
            cases hf : s.flag with
            | true =>
              simp only [hf, if_true, List.nil_append]
              exact ih _ (fun _ => rfl)
            | false =>
              simp only [hf, Bool.false_eq_true, if_false]
              have : outputAfterReaderExit
                  ((⟨ThreadTag.watcher, PtyOutputEvent.Exit s.exitStatus⟩ : SysEvent) ::
                    sysRun { s with flag := true, inStore := false, wdone := true } rest)
                  = outputAfterReaderExit
                      (sysRun { s with flag := true, inStore := false, wdone := true } rest) := by
                simp [outputAfterReaderExit, isReaderExit]
              rw [List.singleton_append, this]
              exact ih _ (fun _ => rfl)
          | false =>
            rw [sysStep_watcher_wait s hw hin hc]
            simpa using ih s hinv

lemma sysOutputs_append (xs ys : List SysEvent) :
    sysOutputs (xs ++ ys) = sysOutputs xs ++ sysOutputs ys := by
  simp [sysOutputs, List.filterMap_append]

lemma sysOutputs_map_reader (evs : List PtyOutputEvent) :
    sysOutputs (evs.map (fun ev => ⟨ThreadTag.reader, ev⟩)) = outputsOf evs := by
  induction evs with
  | nil => rfl
  | cons e rest ih => cases e <;> simp [sysOutputs, outputsOf] at ih ⊢ <;> exact ih

lemma outputsOf_runReader_cons (c : List Nat) (e : Bool)
    (rest : List (List Nat × Bool)) (st : ReaderState) :
    outputsOf (runReader ((c, e) :: rest) st) =
      outputsOf (stepChunk c e st).1 ++ outputsOf (runReader rest (stepChunk c e st).2) := by
  simp [runReader, outputsOf, List.filterMap_append]

/-- One scheduler step neither loses nor reorders reader `Output`
events: the outputs it emits followed by the outputs the reader still
owes equal the outputs owed before the step. -/
lemma step_outputs (s : SysState) (a : SysAct) :
    sysOutputs (sysStep s a).1 ++ remainingOutputs (sysStep s a).2 = remainingOutputs s := by
  cases a with
  | childExit =>
    rw [sysStep_childExit]
    rfl
  | readerStep =>
    cases hr : s.rdone with
    | true =>
      rw [sysStep_reader_done s hr]
      rfl
    | false =>
      cases hp : s.pending with
      | cons ce restp =>
        obtain ⟨c, e⟩ := ce
        rw [sysStep_reader_chunk s c e restp hr hp]
        simp only [sysOutputs_map_reader]
        have h1 : remainingOutputs { s with pending := restp, rst := (stepChunk c e s.rst).2 }
            = outputsOf (runReader restp (stepChunk c e s.rst).2) := by
          simp [remainingOutputs, hr]
        have h2 : remainingOutputs s = outputsOf (runReader s.pending s.rst) := by
          simp [remainingOutputs, hr]
        rw [h1, h2, hp, outputsOf_runReader_cons]
      | nil =>
        rw [sysStep_reader_eof s hr hp]
        rw [sysOutputs_append, sysOutputs_map_reader]
        have hexit : sysOutputs
            (if s.flag then []
             else [(⟨ThreadTag.reader, PtyOutputEvent.Exit "Reader thread ended"⟩ : SysEvent)])
            = [] := by
          by_cases hf : s.flag = true <;> simp [hf, sysOutputs]
        rw [hexit]
        have h1 :
            remainingOutputs
              { s with rst := (send_batch s.rst true false).2, flag := true, rdone := true }
              = [] := by
          simp [remainingOutputs]
        have h2 : remainingOutputs s = outputsOf (runReader s.pending s.rst) := by
          simp [remainingOutputs, hr]
        rw [h1, h2, hp]
        simp [runReader]
  | watcherPoll =>
    cases hw : s.wdone with
    | true =>
      rw [sysStep_watcher_done s hw]
      rfl
    | false =>
      cases hin : s.inStore with
      | false =>
        rw [sysStep_watcher_gone s hw hin]
        rfl
      | true =>
        cases hc : s.childExited with
        | true =>
          rw [sysStep_watcher_exit s hw hin hc]
          have hexit : sysOutputs
              (if s.flag then []
               else [(⟨ThreadTag.watcher, PtyOutputEvent.Exit s.exitStatus⟩ : SysEvent)])
              = [] := by
            by_cases hf : s.flag = true <;> simp [hf, sysOutputs]
          rw [hexit]
          rfl
        | false =>
          rw [sysStep_watcher_wait s hw hin hc]
          rfl

/-- The outputs of an interleaved run plus the outputs still owed at its
final state are exactly the outputs owed at its initial state. -/
lemma sysOutputs_sysRun : ∀ (acts : List SysAct) (s : SysState),
    sysOutputs (sysRun s acts) ++ remainingOutputs (sysFinal s acts) = remainingOutputs s := by
  intro acts
  induction acts with
  | nil => intro s; simp [sysRun, sysFinal, sysOutputs]
  | cons a rest ih =>
    intro s
    rw [sysRun_cons, sysOutputs_append, List.append_assoc]
    rw [show sysFinal s (a :: rest) = sysFinal (sysStep s a).2 rest from rfl]
    rw [ih (sysStep s a).2]
    exact step_outputs s a

lemma lookupS_removeS : ∀ (st : Store) (id2 : String), lookupS (removeS st id2) id2 = none := by
  intro st id2
  induction st with
  | nil => rfl
  | cons kv rest ih =>
    obtain ⟨k, v⟩ := kv
    by_cases hk : k = id2
    · simp [removeS, hk, ih]
    · simp [removeS, lookupS, hk, ih]

lemma writeCallsAfter_eq (data : List Nat) : writeCallsAfter data = [data] := rfl

/-- C10: no empty `Output` event is ever emitted by the reader loop —
`send_batch` only sends when the batch buffer is non-empty, on timed
flushes and forced flushes (EOF / I-O error) alike. -/
theorem C10_no_empty_output :
    ∀ (inputs : List (List Nat × Bool)) (st : ReaderState) (d : List Nat),
    PtyOutputEvent.Output d ∈ runReader inputs st → d ≠ [] :=
  runReader_output_nonempty

/-- Witness for C10 at a concrete run: the single read `[65]` with the
batch timeout elapsed produces an `Output` event, whose payload is
non-empty. -/
theorem C10_no_empty_output_witness :
    PtyOutputEvent.Output [65] ∈ runReader [([65], true)] initReader ∧ ([65] : List Nat) ≠ [] :=
  ⟨by decide, C10_no_empty_output [([65], true)] initReader [65] (by decide)⟩

/-- C4 (counterexample): a chunk consisting of the single bell byte 7 is
forwarded into the `Output` event payload — contrary to the claim that
no bell byte ever appears in any `Output` payload, the reader emits
`Bell` and then an `Output` containing the BEL byte itself. -/
theorem C4_counterexample :
    runReader [([7], true)] initReader
      = [PtyOutputEvent.Bell, PtyOutputEvent.Output [7]] := by decide

/-- C4 (amended): concatenating the `Output` payloads of a complete
reader run, in emission order, yields exactly the bytes of the chunk
stream that survive the per-chunk title scanner — recognized OSC title
spans are excluded, but bare BEL bytes pass through. -/
theorem C4_amended :
    ∀ inputs : List (List Nat × Bool),
    concatOutputs (runReader inputs initReader)
      = scanAll (inputs.map Prod.fst) [] ⟨false, []⟩ := by
  intro inputs
  rw [concatOutputs_runReader inputs initReader]
  simp [initReader]

/-- C5 (counterexample): a chunk containing two BEL bytes produces a
single `Bell` event, not one per BEL byte — the code emits at most one
`Bell` per read chunk (`buffer[0..n].contains(&7)`). -/
theorem C5_counterexample :
    runReader [([7, 7], true)] initReader
        = [PtyOutputEvent.Bell, PtyOutputEvent.Output [7, 7]]
    ∧ List.countP isBellEv (runReader [([7, 7], true)] initReader) = 1 :=
  ⟨by decide, by decide⟩

/-- C5 (amended): every read chunk containing at least one BEL byte
emits exactly one `Bell` event (chunks without BEL emit none), and the
`Bell` is the first event of that iteration — before any `Title` or
batched `Output` — hence independent of the batch timeout. -/
theorem C5_amended :
    ∀ (chunk : List Nat) (el : Bool) (st : ReaderState),
    (List.countP isBellEv (stepChunk chunk el st).1 = if 7 ∈ chunk then 1 else 0)
    ∧ (7 ∈ chunk → ((stepChunk chunk el st).1).head? = some PtyOutputEvent.Bell) :=
  fun chunk el st => stepChunk_bell chunk el st

/-- Witness for C5 (amended) at the concrete chunk `[7, 65]`. -/
theorem C5_amended_witness :
    List.countP isBellEv (stepChunk [7, 65] true initReader).1
        = (if 7 ∈ [7, 65] then 1 else 0)
    ∧ ((stepChunk [7, 65] true initReader).1).head? = some PtyOutputEvent.Bell :=
  ⟨(C5_amended [7, 65] true initReader).1,
   (C5_amended [7, 65] true initReader).2 (by decide)⟩

/-- C6: the title scanner recognizes the four-byte OSC introducer
ESC `]` `0` `;`, captures bytes until the BEL terminator, emits exactly
one `Title` event carrying the captured span when it is valid UTF-8
(and drops the update otherwise), forwards none of the span to the
batch buffer, and returns to passthrough state.  Concretely, the chunk
`ESC ] 0 ; "My Title" BEL` produces exactly one
`Title "My Title"` event and no `Output` event at all. -/
theorem C6_title_scanner :
    (∀ T batch : List Nat, (∀ b ∈ T, b ≠ 92 ∧ b ≠ 7) →
      process_for_title (27 :: 93 :: 48 :: 59 :: (T ++ [7])) batch ⟨false, []⟩ =
        ((if utf8Valid T then [PtyOutputEvent.Title T] else []), batch, ⟨false, []⟩))
    ∧ runReader [(27 :: 93 :: 48 :: 59 :: ([77, 121, 32, 84, 105, 116, 108, 101] ++ [7]),
          true)] initReader
        = [PtyOutputEvent.Bell, PtyOutputEvent.Title [77, 121, 32, 84, 105, 116, 108, 101]] := by
  constructor
  · intro T batch h
    rw [pft_intro (T ++ [7]) batch ⟨false, []⟩ (by simp)]
    rw [pft_capture_run T batch [] h]
    simp
  · decide

/-- Witness for C6 at the concrete title span `[77, 121]` ("My"). -/
theorem C6_title_scanner_witness :
    process_for_title (27 :: 93 :: 48 :: 59 :: ([77, 121] ++ [7])) [] ⟨false, []⟩
      = ([PtyOutputEvent.Title [77, 121]], [], ⟨false, []⟩) := by
  rw [C6_title_scanner.1 [77, 121] [] (by decide)]
  decide

/-- C1: in every interleaving of the reader thread, the exit watcher,
`destroy_pty` and `is_pty_alive`, at most one `Exit` event is delivered
for a session, and every emission comes from a successful
compare-and-swap of the flag from `false` to `true` by the reader or
the watcher — an action that finds the flag set emits nothing. -/
theorem C1_exactly_once_guard :
    (∀ t : List ExitAction, exitCount false t ≤ 1)
    ∧ (∀ (f : Bool) (a : ExitAction), 0 < (exitEmits f a).2 →
        f = false ∧ (exitEmits f a).1 = true
          ∧ (a = ExitAction.readerClaim ∨ a = ExitAction.watcherClaim)) := by
  constructor
  · exact exitCount_le_one
  · intro f a h
    cases f <;> cases a <;> simp_all [exitEmits]

/-- Witness for C1 at a concrete interleaving: destroy, reader and
watcher all race, and at most one `Exit` is sent; the reader claim
from a clear flag emits, sets the flag, and is a reader/watcher claim. -/
theorem C1_exactly_once_guard_witness :
    exitCount false
        [ExitAction.readerClaim, ExitAction.watcherClaim, ExitAction.destroySet] ≤ 1
    ∧ (false = false ∧ (exitEmits false ExitAction.readerClaim).1 = true
        ∧ (ExitAction.readerClaim = ExitAction.readerClaim
            ∨ ExitAction.readerClaim = ExitAction.watcherClaim)) :=
  ⟨C1_exactly_once_guard.1 _, C1_exactly_once_guard.2 false ExitAction.readerClaim (by decide)⟩

/-- C2 (counterexample): an execution in which `destroy_pty` sets the
flag before the reader thread reaches its post-loop claim delivers ZERO
`Exit` events — `destroy_pty` stores `true` without emitting, so the
later reader claim loses and emits nothing.  This refutes the claim
that every session observes exactly one (never zero) `Exit` event. -/
theorem C2_counterexample :
    exitCount false [ExitAction.destroySet, ExitAction.readerClaim] = 0 := by decide

/-- C2 (amended): at most one `Exit` event is observed in every
interleaving; and in every execution in which some reader or watcher
claim occurs and neither `destroy_pty` nor an `is_pty_alive` probe sets
the flag, exactly one `Exit` event is observed. -/
theorem C2_amended :
    (∀ t : List ExitAction, exitCount false t ≤ 1)
    ∧ (∀ t : List ExitAction, t ≠ [] →
        (∀ a ∈ t, a = ExitAction.readerClaim ∨ a = ExitAction.watcherClaim) →
        exitCount false t = 1) := by
  constructor
  · exact exitCount_le_one
  · intro t hne h
    cases t with
    | nil => exact absurd rfl hne
    | cons a rest =>
      rcases h a (by simp) with rfl | rfl <;>
        simp [exitCount, exitEmits, exitCount_true]

/-- Witness for C2 (amended): the reader claim alone yields exactly one
`Exit` event. -/
theorem C2_amended_witness :
    exitCount false [ExitAction.readerClaim] ≤ 1
    ∧ exitCount false [ExitAction.readerClaim] = 1 :=
  ⟨C2_amended.1 _, C2_amended.2 [ExitAction.readerClaim] (by decide) (by decide)⟩

/-- C3 (counterexample): an interleaving in which the child exits and
the watcher polls before the reader has drained the PTY buffer delivers
the `Exit` event FIRST and an `Output` event after it — refuting the
claim that in every interleaving all `Output` events of a session
precede its `Exit` event and that `Exit` follows the final flush. -/
theorem C3_counterexample :
    sysRun (sysInit [([65], true)] "ExitStatus(0)")
        [SysAct.childExit, SysAct.watcherPoll, SysAct.readerStep, SysAct.readerStep]
      = [⟨ThreadTag.watcher, PtyOutputEvent.Exit "ExitStatus(0)"⟩,
         ⟨ThreadTag.reader, PtyOutputEvent.Output [65]⟩] := by rfl

/-- C3 (amended): in every interleaving no `Output` event ever follows
an `Exit` event emitted by the READER thread (the reader claims the
flag only after its final forced flush), and `Output` events preserve
read order: in every run in which the reader thread has finished, the
sequence of `Output` payloads of the interleaved trace equals the
`Output` payload sequence of the sequential reader loop on the same
reads.  An `Exit` emitted by the exit watcher carries no such ordering
guarantee. -/
theorem C3_amended :
    (∀ (cin : List (List Nat × Bool)) (status : String) (acts : List SysAct),
      outputAfterReaderExit (sysRun (sysInit cin status) acts) = false)
    ∧ (∀ (cin : List (List Nat × Bool)) (status : String) (acts : List SysAct),
      (sysFinal (sysInit cin status) acts).rdone = true →
      sysOutputs (sysRun (sysInit cin status) acts) = outputsOf (runReader cin initReader)) := by
  constructor
  · exact fun cin status acts =>
      oare_sysRun acts (sysInit cin status) (fun h => by simp [sysInit] at h)
  · intro cin status acts hdone
    have h := sysOutputs_sysRun acts (sysInit cin status)
    rw [show remainingOutputs (sysFinal (sysInit cin status) acts) = [] from by
          simp [remainingOutputs, hdone]] at h
    rw [List.append_nil] at h
    rw [h]
    simp [remainingOutputs, sysInit]

/-- Witness for C3 (amended): a concrete completed run — one read, then
EOF, then the child exit and a watcher poll — whose `Output` payload
sequence equals that of the sequential reader loop. -/
theorem C3_amended_witness :
    (sysFinal (sysInit [([65], true)] "ExitStatus(0)")
        [SysAct.readerStep, SysAct.readerStep, SysAct.childExit, SysAct.watcherPoll]).rdone = true
    ∧ sysOutputs (sysRun (sysInit [([65], true)] "ExitStatus(0)")
        [SysAct.readerStep, SysAct.readerStep, SysAct.childExit, SysAct.watcherPoll])
      = outputsOf (runReader [([65], true)] initReader) :=
  ⟨by decide,
   C3_amended.2 [([65], true)] "ExitStatus(0)"
     [SysAct.readerStep, SysAct.readerStep, SysAct.childExit, SysAct.watcherPoll] (by decide)⟩

/-- C7 (counterexample): `write_pty` performs a single `write_all` of
the whole payload — there is no bound `B` such that every write call
has length at most `B`: writing a payload of length `B + 1` to a fresh
session records exactly one call carrying the entire payload. -/
theorem C7_counterexample :
    (¬ ∃ B : Nat, ∀ data : List Nat, ∀ c ∈ writeCallsAfter data, c.length ≤ B)
    ∧ writeCallsAfter (List.replicate 65536 0) = [List.replicate 65536 0] := by
  constructor
  · rintro ⟨B, h⟩
    have h2 := h (List.replicate (B + 1) 0) (List.replicate (B + 1) 0)
      (by rw [writeCallsAfter_eq]; simp)
    simp at h2
  · exact writeCallsAfter_eq _

/-- C7 (amended): on a present session with a stored writer and no I-O
failure, `write_pty` passes the whole payload to one `write_all`,
flushes once, and adds the payload length to `bytes_written`; on an
absent session it returns a not-found error and leaves the store
unchanged. -/
theorem C7_amended :
    (∀ (st : Store) (id2 : String) (data : List Nat) (s : Session),
      lookupS st id2 = some s → s.writerPresent = true → s.writeIoErr = none →
      write_pty st id2 data =
        (Except.ok (),
         updateS st id2
           { s with writeCalls := s.writeCalls ++ [data],
                    flushCalls := s.flushCalls + 1,
                    bytesWritten := s.bytesWritten + data.length }))
    ∧ (∀ (st : Store) (id2 : String) (data : List Nat),
        lookupS st id2 = none →
        write_pty st id2 data = (Except.error ("PTY with ID " ++ id2 ++ " not found"), st)) := by
  constructor
  · intro st id2 data s hl hw hio
    simp [write_pty, hl, hw, hio]
  · intro st id2 data hl
    simp [write_pty, hl]

/-- Witness for C7 (amended) on a concrete fresh store and payload. -/
theorem C7_amended_witness :
    write_pty [("s", freshSession)] "s" [1, 2, 3] =
      (Except.ok (),
       updateS [("s", freshSession)] "s"
         { freshSession with writeCalls := freshSession.writeCalls ++ [[1, 2, 3]],
                             flushCalls := freshSession.flushCalls + 1,
                             bytesWritten := freshSession.bytesWritten + 3 })
    ∧ write_pty [] "s" [1, 2, 3] =
      (Except.error ("PTY with ID " ++ "s" ++ " not found"), []) :=
  ⟨C7_amended.1 [("s", freshSession)] "s" [1, 2, 3] freshSession rfl rfl rfl,
   C7_amended.2 [] "s" [1, 2, 3] rfl⟩

/-- C8 (counterexample): `is_pty_alive` is NOT error-free — when the
non-blocking probe itself fails, the error is propagated to the caller
instead of a boolean. -/
theorem C8_counterexample :
    is_pty_alive [("s", errSession)] "s"
      = (Except.error "probe failed", [("s", errSession)]) := rfl

/-- C8 (amended): `is_pty_alive` returns `Ok false` for an absent
session (not an error) and for a session whose flag is already set; on
a clear flag it probes the child: a detected exit sets the flag and
yields `Ok false`, a running child yields `Ok true`, and a failing
probe is the one case that returns an error. -/
theorem C8_amended :
    (∀ (st : Store) (id2 : String), lookupS st id2 = none →
      is_pty_alive st id2 = (Except.ok false, st))
    ∧ (∀ (st : Store) (id2 : String) (s : Session), lookupS st id2 = some s →
        s.exitEventSent = true → is_pty_alive st id2 = (Except.ok false, st))
    ∧ (∀ (st : Store) (id2 : String) (s : Session) (status : String),
        lookupS st id2 = some s → s.exitEventSent = false →
        s.child = ChildProbe.exited status →
        is_pty_alive st id2 = (Except.ok false, updateS st id2 { s with exitEventSent := true }))
    ∧ (∀ (st : Store) (id2 : String) (s : Session), lookupS st id2 = some s →
        s.exitEventSent = false → s.child = ChildProbe.running →
        is_pty_alive st id2 = (Except.ok true, st))
    ∧ (∀ (st : Store) (id2 : String) (s : Session) (m : String),
        lookupS st id2 = some s → s.exitEventSent = false →
        s.child = ChildProbe.probeErr m →
        is_pty_alive st id2 = (Except.error m, st)) := by
  refine ⟨?_, ?_, ?_, ?_, ?_⟩
  · intro st id2 hl
    simp [is_pty_alive, hl]
  · intro st id2 s hl hf
    simp [is_pty_alive, hl, hf]
  · intro st id2 s status hl hf hc
    simp [is_pty_alive, hl, hf, hc]
  · intro st id2 s hl hf hc
    simp [is_pty_alive, hl, hf, hc]
  · intro st id2 s m hl hf hc
    simp [is_pty_alive, hl, hf, hc]

/-- Witness for C8 (amended): an absent id yields `Ok false`, and a
session with an exited child claims the flag and yields `Ok false`. -/
theorem C8_amended_witness :
    is_pty_alive [] "s" = (Except.ok false, [])
    ∧ is_pty_alive [("s", exitedSession)] "s"
        = (Except.ok false,
           updateS [("s", exitedSession)] "s" { exitedSession with exitEventSent := true }) :=
  ⟨C8_amended.1 [] "s" rfl,
   C8_amended.2.2.1 [("s", exitedSession)] "s" exitedSession "ExitStatus(0)" rfl rfl rfl⟩

/-- C9: `destroy_pty` always returns success — also when `kill()` and
`wait()` fail, whose outcomes it ignores — is a no-op on an unknown or
already-removed id, removes a present session from the store, and a
second destroy of the same id is again a no-op success. -/
theorem C9_destroy_idempotent :
    (∀ (st : Store) (id2 : String), (destroy_pty st id2).1 = Except.ok ())
    ∧ (∀ (st : Store) (id2 : String), lookupS st id2 = none →
        destroy_pty st id2 = (Except.ok (), st))
    ∧ (∀ (st : Store) (id2 : String) (s : Session), lookupS st id2 = some s →
        (destroy_pty st id2).2 = removeS st id2
        ∧ destroy_pty (removeS st id2) id2 = (Except.ok (), removeS st id2)) := by
  refine ⟨?_, ?_, ?_⟩
  · intro st id2
    unfold destroy_pty
    cases lookupS st id2 <;> rfl
  · intro st id2 hl
    simp [destroy_pty, hl]
  · intro st id2 s hl
    constructor
    · simp [destroy_pty, hl]
    · simp [destroy_pty, lookupS_removeS]

/-- Witness for C9 on a session whose kill and wait both fail and on
the empty store. -/
theorem C9_destroy_idempotent_witness :
    (destroy_pty [("s", stubbornSession)] "s").1 = Except.ok ()
    ∧ destroy_pty [] "s" = (Except.ok (), ([] : Store))
    ∧ (destroy_pty [("s", stubbornSession)] "s").2 = removeS [("s", stubbornSession)] "s"
    ∧ destroy_pty (removeS [("s", stubbornSession)] "s") "s"
        = (Except.ok (), removeS [("s", stubbornSession)] "s") :=
  ⟨C9_destroy_idempotent.1 [("s", stubbornSession)] "s",
   C9_destroy_idempotent.2.1 [] "s" rfl,
   (C9_destroy_idempotent.2.2 [("s", stubbornSession)] "s" stubbornSession rfl).1,
   (C9_destroy_idempotent.2.2 [("s", stubbornSession)] "s" stubbornSession rfl).2⟩

end Termillion
